import Mathlib

/-!
Verification of the codecrafters-redis server against its specification.

The Rust sources are embedded shallowly at the byte level: Rust `&str` /
`String` values are modelled as lists of byte values (`List Nat`, each entry
below 256), since all the string operations the code performs (slicing by
byte index, `len()`, searching for CRLF) are byte oriented.  Fallible Rust
code returning `Result`/`Option` is modelled with `Except`/`Option`; a Rust
panic (`expect`, `unimplemented`, slice index out of range) is modelled as a
distinguished error value, since a panic never returns to the caller.
-/

namespace RedisProof

/-- The CRLF terminator bytes, from consts.rs (`CRLF = "\r\n"`). -/
def crlfBytes : List Nat := [13, 10]

/-- RESP message type from parser/messages.rs (`enum RedisMessageType`):
SimpleString, BulkString, Integer (i64) and Array.  Payload strings are
modelled as byte lists. -/
inductive RedisMessageType where
  | simpleString (data : List Nat)
  | bulkString (data : List Nat)
  | integer (data : Int)
  | array (data : List RedisMessageType)
deriving Repr

/-- Decimal digits (as ASCII bytes) of a natural number, modelling Rust
`format!` of an unsigned integer / `usize`. -/
def natDecimal (n : Nat) : List Nat :=
  (Nat.toDigits 10 n).map Char.toNat

/-- Decimal ASCII bytes of a signed integer, modelling Rust `format!` of an
`i64` (minus sign followed by the digits of the absolute value). -/
def intDecimal (n : Int) : List Nat :=
  if n < 0 then 45 :: natDecimal n.natAbs else natDecimal n.toNat

mutual

/-- `RedisMessageType::encode` from parser/messages.rs: `+data CRLF`,
`$len CRLF data CRLF`, `:n CRLF`, `*len CRLF elements`. -/
def encode : RedisMessageType → List Nat
  | .simpleString data => 43 :: (data ++ crlfBytes)
  | .bulkString data => 36 :: (natDecimal data.length ++ crlfBytes ++ data ++ crlfBytes)
  | .integer data => 58 :: (intDecimal data ++ crlfBytes)
  | .array data => 42 :: (natDecimal data.length ++ crlfBytes ++ encodeArrayElements data)

/-- `encode_array_elements` from parser/messages.rs: concatenation of the
encodings of the elements, in order. -/
def encodeArrayElements : List RedisMessageType → List Nat
  | [] => []
  | m :: ms => encode m ++ encodeArrayElements ms

end

/-- Outcome of a failed decode: either a recoverable error (`anyhow` `Err`)
or a Rust panic (`expect` / out-of-range slice), which does not return to
the caller. -/
inductive DecErr where
  | failed (msg : String)
  | panicked (msg : String)
deriving Repr, DecidableEq

/-- Result type of `RedisMessageType::decode` (`RedisDecodeResult`): the
message together with the number of bytes it reports as consumed. -/
abbrev DecodeRes := Except DecErr (RedisMessageType × Nat)

/-- `str::split_once(CRLF)`: the bytes before the first CRLF and the bytes
after it, or `none` when no CRLF occurs. -/
def splitOnceCRLF : List Nat → Option (List Nat × List Nat)
  | 13 :: 10 :: rest => some ([], rest)
  | x :: rest =>
    match splitOnceCRLF rest with
    | none => none
    | some (pre, post) => some (x :: pre, post)
  | [] => none

/-- The numeric value of an ASCII decimal digit byte. -/
def digitVal? (c : Nat) : Option Nat :=
  if 48 ≤ c ∧ c ≤ 57 then some (c - 48) else none

/-- Accumulate decimal digits; `none` on the first non-digit byte. -/
def parseDigitsAux : List Nat → Nat → Option Nat
  | [], acc => some acc
  | c :: rest, acc =>
    match digitVal? c with
    | none => none
    | some d => parseDigitsAux rest (acc * 10 + d)

/-- `usize::from_str_radix(s, 10)`: optional leading plus sign, one or more
decimal digits, value below 2^64 (64-bit `usize`). -/
def parseUsize (s : List Nat) : Option Nat :=
  let body := fun (t : List Nat) =>
    if t = [] then none
    else match parseDigitsAux t 0 with
      | none => none
      | some v => if v < 2 ^ 64 then some v else none
  match s with
  | 43 :: rest => body rest
  | rest => body rest

/-- `i64::from_str_radix(s, 10)`: optional sign, decimal digits, value in
the `i64` range. -/
def parseI64 (s : List Nat) : Option Int :=
  let body := fun (t : List Nat) (neg : Bool) =>
    if t = [] then none
    else match parseDigitsAux t 0 with
      | none => none
      | some v =>
        if neg then
          if v ≤ 2 ^ 63 then some (-(v : Int)) else none
        else
          if v < 2 ^ 63 then some ((v : Int)) else none
  match s with
  | 43 :: rest => body rest false
  | 45 :: rest => body rest true
  | rest => body rest false

/-- `parse_simple_string` from parser/messages.rs: split `s[1..]` at the
first CRLF (panicking via `expect` when there is none) and report
`value.len() + 3` bytes consumed. -/
def parseSimpleString (s : List Nat) : DecodeRes :=
  match splitOnceCRLF (s.drop 1) with
  | none => .error (.panicked "Simple string must end on a CRLF")
  | some (value, _) => .ok (.simpleString value, value.length + 3)

/-- `parse_bulk_string` from parser/messages.rs: split `s[1..]` at the first
CRLF into length digits and payload, slice `value[0..length]` (a panic when
fewer bytes are present), and report `length_str.len() + 3 + length + 2`
bytes consumed. -/
def parseBulkString (s : List Nat) : DecodeRes :=
  match splitOnceCRLF (s.drop 1) with
  | none => .error (.panicked "Malformed Bulk String. Expected length and data element split by CRLF.")
  | some (lengthStr, value) =>
    match parseUsize lengthStr with
    | none => .error (.failed "invalid digit found in string")
    | some length =>
      if length ≤ value.length then
        .ok (.bulkString (value.take length), lengthStr.length + 3 + length + 2)
      else
        .error (.panicked "byte index out of bounds")

/-- `parse_integer` from parser/messages.rs: split `s[1..]` at the first
CRLF (panicking when there is none), parse the value as `i64`, and report
`value_str.len() + 3` bytes consumed. -/
def parseInteger (s : List Nat) : DecodeRes :=
  match splitOnceCRLF (s.drop 1) with
  | none => .error (.panicked "Malformed Bulk String. Expected length and data element split by CRLF.")
  | some (valueStr, _) =>
    match parseI64 valueStr with
    | none => .error (.failed "invalid digit found in string")
    | some value => .ok (.integer value, valueStr.length + 3)

mutual

/-- `RedisMessageType::decode` from parser/messages.rs, with a fuel
parameter to bound the recursion through nested arrays.  Dispatches on the
first byte: `+` simple string, `$` bulk string, `:` integer, `*` array;
anything else is an error.  The `*` branch inlines `parse_array`: NOTE
the source splits the FULL input (not `s[1..]`) at the first CRLF, so
`length_str` still contains the leading `*`, and it then reports
`length_str.len() + 3 + all_value_length` bytes consumed. -/
def decodeAux : Nat → List Nat → DecodeRes
  | 0, _ => .error (.failed "out of fuel")
  | Nat.succ fuel, s =>
    match s.head? with
    | none => .error (.failed "Redis message does not contain any chars")
    | some c =>
      if c = 43 then parseSimpleString s
      else if c = 36 then parseBulkString s
      else if c = 58 then parseInteger s
      else if c = 42 then
        match splitOnceCRLF s with
        | none => .error (.panicked "Malformed Array. Expected length and data element split by CRLF.")
        | some (lengthStr, value) =>
          match parseUsize (lengthStr.drop 1) with
          | none => .error (.failed "invalid digit found in string")
          | some length =>
            match decodeElems fuel value length with
            | .error e => .error e
            | .ok (arr, allValueLength) =>
              .ok (.array arr, lengthStr.length + 3 + allValueLength)
      else .error (.failed "Unhandled first char in redis data")

/-- The element loop of `parse_array`: decode one element, advance the
cursor by the reported consumed count (`&value[consumed..]` panics when the
count exceeds the remaining bytes), repeat for the declared length. -/
def decodeElems : Nat → List Nat → Nat → Except DecErr (List RedisMessageType × Nat)
  | _, _, 0 => .ok ([], 0)
  | 0, _, Nat.succ _ => .error (.failed "out of fuel")
  | Nat.succ fuel, value, Nat.succ n =>
    match decodeAux fuel value with
    | .error e => .error e
    | .ok (m, consumed) =>
      if consumed ≤ value.length then
        match decodeElems fuel (value.drop consumed) n with
        | .error e => .error e
        | .ok (rest, restLength) => .ok (m :: rest, consumed + restLength)
      else
        .error (.panicked "byte index out of bounds")

end

/-- `RedisMessageType::decode`, with enough fuel for any input. -/
def decode (s : List Nat) : DecodeRes :=
  decodeAux (2 * s.length + 2) s

/-! ## Data store (db/data_store.rs)

The concurrent `DashMap<String, DataUnit>` is modelled as an association
list with unique keys: lookup finds the first binding, insertion replaces
the binding in place (the `entry().and_modify(swap).or_insert_with()`
upsert), removal filters the key out.  `Instant` values are modelled as
natural numbers passed explicitly. -/

/-- `DataUnit` from db/data_store.rs: key, value and an optional expiry
deadline (a monotonic instant). -/
structure DataUnit where
  key : String
  value : String
  expiry : Option Nat
deriving Repr, DecidableEq

/-- `DataUnit::is_expired`: true when a deadline exists and
`Instant::now() >= deadline`. -/
def DataUnit.isExpired (u : DataUnit) (now : Nat) : Bool :=
  match u.expiry with
  | some deadline => decide (now ≥ deadline)
  | none => false

/-- The map underlying `DataStore`. -/
abbrev Store := List (String × DataUnit)

/-- Lookup in the map (`DashMap::get`). -/
def storeGetRaw : Store → String → Option DataUnit
  | [], _ => none
  | (k0, v0) :: rest, k => if k0 = k then some v0 else storeGetRaw rest k

/-- `DataStore::remove_key` (`DashMap::remove`): the key is absent
afterwards. -/
def storeErase (db : Store) (k : String) : Store :=
  db.filter (fun p => p.1 != k)

/-- `DataStore::set`: the upsert `entry(key).and_modify(swap)
.or_insert_with(value)` — replace the existing binding in place, or append
a new one. -/
def storeInsert : Store → String → DataUnit → Store
  | [], k, v => [(k, v)]
  | (k0, v0) :: rest, k, v =>
    if k0 = k then (k0, v) :: rest else (k0, v0) :: storeInsert rest k v

/-- `DataStore::get`: look the key up; when the entry is expired, remove
the key and return not-found, otherwise return the entry.  Returns the
result together with the store after the call. -/
def dsGet (db : Store) (now : Nat) (k : String) : Option DataUnit × Store :=
  match storeGetRaw db k with
  | none => (none, db)
  | some v => if v.isExpired now then (none, storeErase db k) else (some v, db)

/-- `DataStore::get_all_keys`: iterate the map and collect `entry.key`
(the `key` field of each `DataUnit`, reached through the guard deref). -/
def getAllKeys (db : Store) : List String :=
  db.map (fun p => p.2.key)

/-! ## Command layer RESP values

The command handlers (set.rs, get.rs, keys.rs, traits.rs) use a richer
`RedisMessageType` than the one defined in parser/messages.rs: they call
variants `Error` and `NullBulkString` and helpers `error`, `as_string`,
`bulk_string_value` and `bulk_string_array` that appear nowhere under src/.
The enriched type is therefore modelled here, from the spec (section 3 data
model: SimpleString, Error, Integer, BulkString, NullBulkString, Array). -/

/-- Modelled from the spec: the RESP message union used by the command
handlers, including the `Error` and `NullBulkString` variants missing from
src/.  Payloads are Rust `String`s, modelled as Lean strings. -/
inductive Resp where
  | simpleString (s : String)
  | bulkString (s : String)
  | nullBulkString
  | integer (n : Int)
  | error (s : String)
  | array (xs : List Resp)
deriving Repr

/-- Modelled from the spec: `RedisMessageType::as_string`, used by set.rs
and get.rs but missing from src/ — the textual payload of a SimpleString
or BulkString, none for other variants. -/
def Resp.asString : Resp → Option String
  | .simpleString s => some s
  | .bulkString s => some s
  | _ => none

/-- Modelled from the spec: `RedisMessageType::bulk_string_value`, used by
keys.rs but missing from src/ — the payload of a BulkString, an error
reply for any other variant (spec: a non-bulk argument is a command
error). -/
def bulkStringValue : Resp → Except Resp String
  | .bulkString s => .ok s
  | _ => .error (.error "ERR argument must be a bulk string")

/-- Modelled from the spec: `RedisMessageType::bulk_string_array`, used by
keys.rs but missing from src/ — an Array of BulkStrings (spec: KEYS
replies Array(bulk) of keys). -/
def bulkStringArray (xs : List String) : Resp :=
  .array (xs.map .bulkString)

/-- `ArgErrorMessageGenerator::arg_count_error` from commands/traits.rs
(quotation marks around the command name elided). -/
def argCountError (name : String) : Resp :=
  .error ("ERR wrong number of arguments for " ++ name ++ " command")

/-! ## SET command (commands/set.rs)

Durations and instants are modelled in milliseconds.  `SystemTime::now()`
and `Instant::now()` are passed in as the explicit parameter `nowMs`; the
missing two-argument `DataUnit::new(value, expiry)` constructor called by
set.rs is modelled through db/data_store.rs semantics (`Expiry::Ttl`:
deadline = now + ttl). -/

/-- `SetArguments` from commands/set.rs.  Duration payloads are
milliseconds. -/
inductive SetArguments where
  | nx
  | xx
  | ifeq
  | ifne
  | ifdeq
  | ifdne
  | getOpt
  | ex (d : Nat)
  | px (d : Nat)
  | exat (d : Nat)
  | pxat (d : Nat)
  | keepttl
deriving Repr, DecidableEq

/-- `SetArguments::decode`: match the option name (the unknown-argument
error message abbreviated, apostrophes elided). -/
def SetArguments.decodeArg (s : String) : Except Resp SetArguments :=
  if s = "NX" then .ok .nx
  else if s = "XX" then .ok .xx
  else if s = "IFEQ" then .ok .ifeq
  else if s = "IFNE" then .ok .ifne
  else if s = "IFDEQ" then .ok .ifdeq
  else if s = "IFDNE" then .ok .ifdne
  else if s = "GET" then .ok .getOpt
  else if s = "EX" then .ok (.ex 0)
  else if s = "PX" then .ok (.px 0)
  else if s = "EXAT" then .ok (.exat 0)
  else if s = "PXAT" then .ok (.pxat 0)
  else if s = "KEEPTTL" then .ok .keepttl
  else .error (.error ("Unknown Set command argument: " ++ s))

/-- `SetArguments::is_expiry_argument`. -/
def SetArguments.isExpiryArgument : SetArguments → Bool
  | .keepttl | .ex _ | .px _ | .exat _ | .pxat _ => true
  | _ => false

/-- `SetArguments::is_set_logic_argument`. -/
def SetArguments.isSetLogicArgument : SetArguments → Bool
  | .nx | .xx => true
  | _ => false

/-- `SetArguments::is_get_logic_argument`. -/
def SetArguments.isGetLogicArgument : SetArguments → Bool
  | .getOpt => true
  | _ => false

/-- `u64::from_str_radix(val, 10)` on a Rust `String`. -/
def parseU64String (s : String) : Option Nat :=
  parseUsize (s.data.map Char.toNat)

/-- `parse_expiry` from commands/set.rs: the option value must be present,
a BulkString and numeric. -/
def parseExpiry (arg : Option Resp) : Except Resp Nat :=
  match arg with
  | none => .error (.error "invalid")
  | some (.bulkString val) =>
    match parseU64String val with
    | some v => .ok v
    | none =>
      .error (.error ("SET with expiry argument expects a Bulk String numeric value argument. Not " ++ val))
  | some _ =>
    .error (.error "SET with expiry argument expects a Bulk String numeric value argument")

/-- 64-bit wrapping subtraction, modelling release-mode `u64` subtraction
in `expiry_from_unix_secs` / `expiry_from_unix_millis`. -/
def wrappingSub64 (a b : Nat) : Nat :=
  (a % 2 ^ 64 + 2 ^ 64 - b % 2 ^ 64) % 2 ^ 64

/-- The option-scanning loop of `parse_arguments`: decode each BulkString
option; an expiry option additionally consumes the following argument as
its numeric value (EX seconds become milliseconds, EXAT/PXAT are converted
to durations from now by `expiry_from_unix_secs` / `_millis`). -/
def parseArgumentsLoop (nowMs : Nat) : List Resp → Except Resp (List SetArguments)
  | [] => .ok []
  | a :: rest =>
    match a with
    | .bulkString val =>
      match SetArguments.decodeArg val with
      | .error e => .error e
      | .ok argument =>
        if argument.isExpiryArgument then
          match parseExpiry rest.head? with
          | .error e => .error e
          | .ok expiryValue =>
            let argument2 : SetArguments :=
              match argument with
              | .ex _ => .ex (expiryValue * 1000)
              | .px _ => .px expiryValue
              | .exat _ => .exat (wrappingSub64 expiryValue (nowMs / 1000) * 1000)
              | .pxat _ => .pxat (wrappingSub64 expiryValue nowMs)
              | v => v
            match rest with
            | [] => .ok [argument2]
            | _ :: rest2 =>
              match parseArgumentsLoop nowMs rest2 with
              | .error e => .error e
              | .ok more => .ok (argument2 :: more)
        else
          match parseArgumentsLoop nowMs rest with
          | .error e => .error e
          | .ok more => .ok (argument :: more)
    | _ => .error (.error "Expected to recieve a BulkString type argument")

/-- The duplicate-option scan at the end of `parse_arguments` (error
messages abbreviated, braces and apostrophes elided). -/
def checkDuplicateArgs : List SetArguments → Bool → Bool → Option Resp
  | [], _, _ => none
  | a :: rest, expPresent, logicPresent =>
    if a.isExpiryArgument then
      if expPresent then
        some (.error "Invalid SET command. Recieved multiple expiry arguments, only one of EX, PX, EXAT, PXAT is allowed.")
      else checkDuplicateArgs rest true logicPresent
    else if a.isSetLogicArgument then
      if logicPresent then
        some (.error "Invalid SET command. Recieved both NX, XX only one of them may be selected!")
      else checkDuplicateArgs rest expPresent true
    else checkDuplicateArgs rest expPresent logicPresent

/-- `parse_arguments` from commands/set.rs: scan the arguments after key
and value, then reject duplicate expiry or NX/XX options. -/
def parseArguments (args : List Resp) (nowMs : Nat) : Except Resp (List SetArguments) :=
  match parseArgumentsLoop nowMs (args.drop 2) with
  | .error e => .error e
  | .ok arguments =>
    match checkDuplicateArgs arguments false false with
    | some e => .error e
    | none => .ok arguments

/-- The expiry extraction in `SetCommand::execute`:
`arguments.iter().find(is_expiry_argument).map(...)` — the KEEPTTL arm is
`unimplemented!`, a panic. -/
def expiryOfArguments (arguments : List SetArguments) : Except String (Option Nat) :=
  match arguments.find? (·.isExpiryArgument) with
  | none => .ok none
  | some (.ex d) => .ok (some d)
  | some (.px d) => .ok (some d)
  | some (.exat d) => .ok (some d)
  | some (.pxat d) => .ok (some d)
  | some .keepttl => .error "not implemented: Needs impl"
  | some _ => .error "unreachable"

/-- The NX gate error reply of `SetCommand::execute` (message abbreviated,
apostrophes elided). -/
def nxGateMsg (k : String) : Resp :=
  .error ("Not setting value for key: " ++ k ++ " due to NX argument (create only command) and exsisting value.")

/-- The XX gate error reply of `SetCommand::execute` (message abbreviated,
apostrophes elided). -/
def xxGateMsg (k : String) : Resp :=
  .error ("Not setting value for key: " ++ k ++ " due to XX argument (update only command) and non exsisting value.")

/-- `SetCommand::execute` from commands/set.rs, as a function of the store
and the current instant.  A Rust panic (the `unimplemented!` KEEPTTL arm,
`unreachable!`) is the `.error` case of the outer `Except`; command errors
are `.ok` replies carrying `Resp.error`.  Note the initial
`get_db().get(&key)` runs before the gate and lazily removes an expired
entry for the key. -/
def setExecute (db : Store) (nowMs : Nat) (args : List Resp) : Except String (Resp × Store) :=
  match args.get? 0 with
  | none => .ok (.error "SET expects an key argument!", db)
  | some keyValue =>
  match args.get? 1 with
  | none => .ok (.error "SET expects an value argument!", db)
  | some valueValue =>
  match keyValue.asString with
  | none => .ok (.error "SET expects a Stringable key argument!", db)
  | some key =>
  match valueValue.asString with
  | none => .ok (.error "SET expects a Stringable value argument!", db)
  | some saveValue =>
  let oldPair := dsGet db nowMs key
  let oldValue := oldPair.1
  let db1 := oldPair.2
  match parseArguments args nowMs with
  | .error err => .ok (err, db1)
  | .ok arguments =>
  match expiryOfArguments arguments with
  | .error msg => .error msg
  | .ok expiry =>
  let returnValueArgument := (arguments.find? (·.isGetLogicArgument)).isSome
  let newUnit : DataUnit := ⟨key, saveValue, expiry.map (fun d => nowMs + d)⟩
  let finish : Store → Except String (Resp × Store) := fun db2 =>
    if returnValueArgument then
      match oldValue with
      | some old => .ok (.simpleString old.value, db2)
      | none => .ok (.simpleString "OK", db2)
    else .ok (.simpleString "OK", db2)
  match arguments.find? (·.isSetLogicArgument) with
  | some .nx =>
    if oldValue.isSome then .ok (nxGateMsg key, db1)
    else finish (storeInsert db1 key newUnit)
  | some .xx =>
    if oldValue.isNone then .ok (xxGateMsg key, db1)
    else finish (storeInsert db1 key newUnit)
  | some _ => .error "unreachable"
  | none => finish (storeInsert db1 key newUnit)

/-! ## KEYS command (commands/keys.rs) -/

/-- The parsed KEYS command. -/
structure KeysCommand where
  pattern : String
deriving Repr, DecidableEq

/-- `KeysCommand::parse` (impl Parse for KeysCommand): pop the pattern
argument, strip one trailing `*` when present, reject further
arguments. -/
def keysParse (args : List Resp) : Except Resp KeysCommand :=
  match args with
  | [] => .error (argCountError "keys")
  | a :: rest =>
    match bulkStringValue a with
    | .error e => .error e
    | .ok arg =>
      let arg2 :=
        match arg.data.getLast? with
        | some c => if c.toNat = 42 then String.mk arg.data.dropLast else arg
        | none => arg
      match rest with
      | [] => .ok ⟨arg2⟩
      | _ => .error (argCountError "keys")

/-- `KeysCommand::execute` (impl Execute for KeysCommand): reply with ALL
keys of the store — the parsed pattern field is never read. -/
def keysExecute (_cmd : KeysCommand) (db : Store) : Except Resp Resp :=
  .ok (bulkStringArray (getAllKeys db))

/-! ## UTF-8 validation (std `str::from_utf8`)

The standard UTF-8 validity check: one-byte sequences below 0x80,
well-formed continuation bytes, no overlong encodings, no surrogates, no
code points above 0x10FFFF. -/

/-- Is the byte a UTF-8 continuation byte (0x80..0xBF)? -/
def isCont (b : Nat) : Bool :=
  128 ≤ b ∧ b ≤ 191

/-- `str::from_utf8(bytes).is_ok()`. -/
def utf8Valid : List Nat → Bool
  | [] => true
  | b :: rest =>
    if b ≤ 127 then utf8Valid rest
    else if 194 ≤ b ∧ b ≤ 223 then
      match rest with
      | b1 :: rest2 => isCont b1 && utf8Valid rest2
      | [] => false
    else if b = 224 then
      match rest with
      | b1 :: b2 :: rest2 => (160 ≤ b1 ∧ b1 ≤ 191 : Bool) && isCont b2 && utf8Valid rest2
      | _ => false
    else if 225 ≤ b ∧ b ≤ 236 then
      match rest with
      | b1 :: b2 :: rest2 => isCont b1 && isCont b2 && utf8Valid rest2
      | _ => false
    else if b = 237 then
      match rest with
      | b1 :: b2 :: rest2 => (128 ≤ b1 ∧ b1 ≤ 159 : Bool) && isCont b2 && utf8Valid rest2
      | _ => false
    else if 238 ≤ b ∧ b ≤ 239 then
      match rest with
      | b1 :: b2 :: rest2 => isCont b1 && isCont b2 && utf8Valid rest2
      | _ => false
    else if b = 240 then
      match rest with
      | b1 :: b2 :: b3 :: rest2 =>
        (144 ≤ b1 ∧ b1 ≤ 191 : Bool) && isCont b2 && isCont b3 && utf8Valid rest2
      | _ => false
    else if 241 ≤ b ∧ b ≤ 243 then
      match rest with
      | b1 :: b2 :: b3 :: rest2 => isCont b1 && isCont b2 && isCont b3 && utf8Valid rest2
      | _ => false
    else if b = 244 then
      match rest with
      | b1 :: b2 :: b3 :: rest2 =>
        (128 ≤ b1 ∧ b1 ≤ 143 : Bool) && isCont b2 && isCont b3 && utf8Valid rest2
      | _ => false
    else false

/-- The `str::from_utf8(&raw_message).expect(..)` step of
`recieve_message` (main.rs): non-UTF-8 client bytes are a panic, modelled
as the error case; valid bytes pass through. -/
def messageInputOfRaw (raw : List Nat) : Except String (List Nat) :=
  if utf8Valid raw then .ok raw
  else .error "Unable to parse input bytestream to str utf8"

/-! ## RESP encoder of parser/parse.rs (`RedisType::serilize`) -/

/-- `RedisType` from parser/parse.rs (payloads are `Vec<u8>`). -/
inductive RedisType where
  | null
  | nullBulkString
  | integer (data : List Nat)
  | boolean (data : List Nat)
  | rdbFile (data : List Nat)
  | bigNumber (data : List Nat)
  | bulkString (data : List Nat)
  | simpleError (data : List Nat)
  | simpleString (data : List Nat)
  | push (data : List RedisType)
  | array (data : List RedisType)
deriving Repr

mutual

/-- `RedisType::serilize` from parser/parse.rs, collecting the bytes the
writer receives.  NOTE the Integer arm writes the byte `+` (43), exactly
as the SimpleString arm does — not `:`. -/
def serilize : RedisType → List Nat
  | .nullBulkString => [36, 45, 49, 13, 10]
  | .null => [95, 13, 10]
  | .simpleString data => 43 :: (data ++ [13, 10])
  | .simpleError data => 45 :: (data ++ [13, 10])
  | .integer data => 43 :: (data ++ [13, 10])
  | .bulkString data => 36 :: (natDecimal data.length ++ [13, 10] ++ data ++ [13, 10])
  | .array data => 42 :: (natDecimal data.length ++ [13, 10] ++ serilizeList data)
  | .boolean data => 35 :: (data ++ [13, 10])
  | .bigNumber data => 40 :: (data ++ [13, 10])
  | .push data => 62 :: (natDecimal data.length ++ [13, 10] ++ serilizeList data)
  | .rdbFile data => 36 :: (natDecimal data.length ++ [13, 10] ++ data)

/-- The element loop of the Array / Push arms of `serilize`. -/
def serilizeList : List RedisType → List Nat
  | [] => []
  | m :: ms => serilize m ++ serilizeList ms

end

/-! ## RDB decoder (db/db_file.rs) -/

/-- Little-endian value of a list of bytes. -/
def leValue : List Nat → Nat
  | [] => 0
  | b :: rest => b + 256 * leValue rest

/-- Big-endian `u32` from four bytes, as in the `0b10` arm of
`parse_length_encoding`. -/
def beU32 (b1 b2 b3 b4 : Nat) : Nat :=
  ((b1 * 256 + b2) * 256 + b3) * 256 + b4

/-- `parse_length_encoding` from db/db_file.rs.  Result: `.ok (some (size,
bytesParsed))` on success, `.ok none` when the function returns `None` to
its caller (missing bytes), and `.error` for the `unimplemented!` panic of
the LZF arm (a panic does not return to the caller). -/
def parseLengthEncoding (buf : List Nat) : Except String (Option (Nat × Nat)) :=
  match buf with
  | [] => .ok none
  | b0 :: rest =>
    match b0 >>> 6 with
    | 0 => .ok (some (b0 % 64, 1))
    | 1 =>
      match rest with
      | b1 :: _ => .ok (some ((b0 % 64) * 256 + b1, 2))
      | [] => .ok none
    | 2 =>
      match rest with
      | b1 :: b2 :: b3 :: b4 :: _ => .ok (some (beU32 b1 b2 b3 b4, 5))
      | _ => .ok none
    | 3 =>
      match b0 % 4 with
      | 0 =>
        match rest with
        | b1 :: _ => .ok (some (b1, 2))
        | [] => .ok none
      | 1 =>
        match rest with
        | b1 :: b2 :: _ => .ok (some (leValue [b1, b2], 3))
        | _ => .ok none
      | 2 =>
        match rest with
        | b1 :: b2 :: b3 :: b4 :: _ => .ok (some (leValue [b1, b2, b3, b4], 5))
        | _ => .ok none
      | _ => .error "LZF compressed string - not implemented"
    | _ => .error "unreachable"

/-- `Header` from db/db_file.rs.  The two Rust `String` fields are
modelled as their UTF-8 bytes. -/
structure Header where
  magicString : List Nat
  version : List Nat
deriving Repr, DecidableEq

/-- Rust `str::to_uppercase` restricted to the bytes it can meet here:
ASCII lowercase letters are uppercased, every other byte is kept.  (The
full Unicode mapping can differ on non-ASCII characters, but no non-ASCII
character uppercases into the pure-ASCII comparand `REDIS`, so equality
with `REDIS` is decided identically.) -/
def asciiUpper (bs : List Nat) : List Nat :=
  bs.map (fun b => if 97 ≤ b ∧ b ≤ 122 then b - 32 else b)

/-- The ASCII bytes of `REDIS`. -/
def redisMagic : List Nat := [82, 69, 68, 73, 83]

/-- `Header::decode` from db/db_file.rs: exactly 9 bytes, both halves
valid UTF-8, and the UPPERCASED magic must equal `REDIS`; the version is
the raw bytes 5..9. -/
def headerDecode (s : List Nat) : Except String Header :=
  if s.length ≠ 9 then .error "Header decode input must to of length 9!"
  else if utf8Valid (s.take 5) = false then .error "invalid utf-8 sequence"
  else if utf8Valid (s.drop 5) = false then .error "invalid utf-8 sequence"
  else if asciiUpper (s.take 5) ≠ redisMagic then .error "Magic string is incorrect! Must be REDIS"
  else .ok ⟨s.take 5, s.drop 5⟩

/-- `MetadataSubSection` from db/db_file.rs (strings as their UTF-8
bytes). -/
structure MetadataSubSection where
  key : List Nat
  value : List Nat
deriving Repr, DecidableEq

/-- The ASCII bytes of `redis-bits`. -/
def redisBitsBytes : List Nat := [114, 101, 100, 105, 115, 45, 98, 105, 116, 115]

/-- The ASCII bytes of `no parse`. -/
def noParseBytes : List Nat := [110, 111, 32, 112, 97, 114, 115, 101]

/-- `MetadataSubSection::decode` from db/db_file.rs: after the 0xFA marker
the key is decoded with `parse_length_encoding`; the VALUE is only decoded
that way when the key differs from `redis-bits` — for `redis-bits` the
code advances the cursor by a fixed 2 bytes and stores the placeholder
string `no parse`. -/
def metadataSubSectionDecode (s : List Nat) : Except String (MetadataSubSection × Nat) :=
  match s with
  | [] => .error "index out of bounds"
  | b :: _ =>
    if b ≠ 250 then .error "MetadataSubSection section must begin with 0xFA"
    else
      match parseLengthEncoding (s.drop 1) with
      | .error e => .error e
      | .ok none => .error "Unable to parse string length in metadata section!"
      | .ok (some (keyLength, parsedBytes)) =>
        let index1 := 1 + parsedBytes
        if index1 + keyLength ≤ s.length then
          let keyBytes := (s.drop index1).take keyLength
          if utf8Valid keyBytes then
            let index2 := index1 + keyLength
            if keyBytes = redisBitsBytes then
              .ok (⟨keyBytes, noParseBytes⟩, index2 + 2)
            else
              match parseLengthEncoding (s.drop index2) with
              | .error e => .error e
              | .ok none => .error "Unable to parse string length in metadata section!"
              | .ok (some (valueLength, parsedBytes2)) =>
                let index3 := index2 + parsedBytes2
                if index3 + valueLength ≤ s.length then
                  let valueBytes := (s.drop index3).take valueLength
                  if utf8Valid valueBytes then
                    .ok (⟨keyBytes, valueBytes⟩, index3 + valueLength)
                  else .error "invalid utf-8 sequence"
                else .error "unable to parse the string length"
          else .error "invalid utf-8 sequence"
        else .error "unable to parse the string length"

/-! ## Store operations as a transition system (for the persistence part of
the TTL claim) -/

/-- One data-store operation: the public mutating surface of `DataStore`
(`get` with its lazy expiry, `set`, `remove_key`). -/
inductive StoreOp where
  | get (k : String) (now : Nat)
  | set (k : String) (v : DataUnit)
  | remove (k : String)

/-- The store reached after one operation. -/
def applyOp (db : Store) : StoreOp → Store
  | .get k now => (dsGet db now k).2
  | .set k v => storeInsert db k v
  | .remove k => storeErase db k

/-- No operation in the list sets the key `k`. -/
def avoidsSet (k : String) (ops : List StoreOp) : Prop :=
  ∀ v, StoreOp.set k v ∉ ops

/-! ## Lemmas about the store primitives -/

theorem storeGetRaw_erase_self (db : Store) (k : String) :
    storeGetRaw (storeErase db k) k = none := by
  induction db with
  | nil => rfl
  | cons p rest ih =>
    obtain ⟨k0, v0⟩ := p
    by_cases h : k0 = k
    · subst h
      simpa [storeErase, List.filter_cons] using ih
    · have hb : (k0 != k) = true := bne_iff_ne.mpr h
      simpa [storeErase, List.filter_cons, hb, storeGetRaw, h] using ih

theorem storeGetRaw_erase_ne (db : Store) (k k2 : String) (h : k2 ≠ k) :
    storeGetRaw (storeErase db k) k2 = storeGetRaw db k2 := by
  induction db with
  | nil => rfl
  | cons p rest ih =>
    obtain ⟨k0, v0⟩ := p
    by_cases h0 : k0 = k
    · subst h0
      have hne : ¬(k0 = k2) := fun hc => h hc.symm
      simpa [storeErase, List.filter_cons, storeGetRaw, hne] using ih
    · have hb : (k0 != k) = true := bne_iff_ne.mpr h0
      by_cases h2 : k0 = k2
      · simp [storeErase, List.filter_cons, hb, storeGetRaw, h2, h]
      · simpa [storeErase, List.filter_cons, hb, storeGetRaw, h2] using ih

theorem storeGetRaw_erase_none (db : Store) (k k2 : String)
    (h : storeGetRaw db k = none) :
    storeGetRaw (storeErase db k2) k = none := by
  by_cases hk : k = k2
  · subst hk
    exact storeGetRaw_erase_self db k
  · rw [storeGetRaw_erase_ne db k2 k hk]
    exact h

theorem storeGetRaw_insert_self (db : Store) (k : String) (v : DataUnit) :
    storeGetRaw (storeInsert db k v) k = some v := by
  induction db with
  | nil => simp [storeInsert, storeGetRaw]
  | cons p rest ih =>
    obtain ⟨k0, v0⟩ := p
    by_cases h : k0 = k
    · simp [storeInsert, storeGetRaw, h]
    · simp [storeInsert, storeGetRaw, h]
      exact ih

theorem storeGetRaw_insert_ne (db : Store) (k k2 : String) (v : DataUnit)
    (h : k2 ≠ k) :
    storeGetRaw (storeInsert db k v) k2 = storeGetRaw db k2 := by
  induction db with
  | nil =>
    have hne : ¬(k = k2) := fun hc => h hc.symm
    simp [storeInsert, storeGetRaw, hne]
  | cons p rest ih =>
    obtain ⟨k0, v0⟩ := p
    by_cases h0 : k0 = k
    · subst h0
      have hne : ¬(k0 = k2) := fun hc => h hc.symm
      simp [storeInsert, storeGetRaw, hne]
    · by_cases h2 : k0 = k2
      · simp [storeInsert, storeGetRaw, h0, h2, h]
      · simp [storeInsert, storeGetRaw, h0, h2]
        exact ih

theorem storeGetRaw_dsGet_snd_none (db : Store) (now : Nat) (k k2 : String)
    (h : storeGetRaw db k = none) :
    storeGetRaw (dsGet db now k2).2 k = none := by
  unfold dsGet
  match hm : storeGetRaw db k2 with
  | none => simpa using h
  | some v =>
    by_cases he : v.isExpired now
    · simp [hm, he]
      exact storeGetRaw_erase_none db k k2 h
    · simp [hm, he]
      exact h

theorem storeGetRaw_applyOp_none (db : Store) (k : String) (op : StoreOp)
    (h : storeGetRaw db k = none) (hop : ∀ v, op ≠ .set k v) :
    storeGetRaw (applyOp db op) k = none := by
  match op with
  | .get k2 now2 => exact storeGetRaw_dsGet_snd_none db now2 k k2 h
  | .set k2 v =>
    have hne : k ≠ k2 := by
      intro hc
      exact hop v (by rw [hc])
    simpa [applyOp, storeGetRaw_insert_ne db k2 k v hne] using h
  | .remove k2 => exact storeGetRaw_erase_none db k k2 h

theorem dsGet_fst_none (db : Store) (now : Nat) (k : String)
    (h : storeGetRaw db k = none) : (dsGet db now k).1 = none := by
  simp [dsGet, h]

theorem storeGetRaw_foldl_none (ops : List StoreOp) (db : Store) (k : String)
    (h : storeGetRaw db k = none) (hops : avoidsSet k ops) :
    storeGetRaw (List.foldl applyOp db ops) k = none := by
  induction ops generalizing db with
  | nil => simpa using h
  | cons op rest ih =>
    have hop : ∀ v, op ≠ StoreOp.set k v := by
      intro v hc
      exact hops v (by rw [← hc]; exact List.mem_cons_self op rest)
    have hrest : avoidsSet k rest := by
      intro v hmem
      exact hops v (List.mem_cons_of_mem op hmem)
    simpa using ih (applyOp db op) (storeGetRaw_applyOp_none db k op h hop) hrest

/-! ## Concrete scenario stores -/

/-- Drive one SET and keep the resulting store (scenario scaffolding). -/
def runSetOk (db : Store) (now : Nat) (args : List Resp) : Store :=
  match setExecute db now args with
  | .ok (_, db2) => db2
  | .error _ => db

/-- The store of spec scenario E: `SET foo 1`, `SET foobar 2`,
`SET baz 3`. -/
def scenarioEStore : Store :=
  runSetOk
    (runSetOk
      (runSetOk [] 0 [.bulkString "foo", .bulkString "1"])
      0 [.bulkString "foobar", .bulkString "2"])
    0 [.bulkString "baz", .bulkString "3"]

/-- A store holding one entry for key `k` that expired at instant 0. -/
def c5Db : Store := [("k", ⟨"k", "v", some 0⟩)]

/-! ## Claim theorems -/

/-- C1: the spec claims `decode(encode(m)) = (m, length(encode(m)))` for
every well-typed message, Arrays included.  The code violates this for
every Array: `parse_array` splits the whole input (keeping the `*` inside
`length_str`) yet still adds 3, so the reported consumed count is one byte
too large — `decode(encode(Array []))` reports 5 consumed bytes while the
encoding is 4 bytes long — and for a nested array the over-advanced cursor
makes the element loop panic on an out-of-range slice. -/
theorem c1_array_roundtrip_off_by_one :
    decode (encode (.array [])) = .ok (.array [], 5) ∧
    (encode (RedisMessageType.array [])).length = 4 ∧
    decode (encode (.array [.array []])) = .error (.panicked "byte index out of bounds") :=
  ⟨rfl, rfl, rfl⟩

/-- C2: the spec claims the process never panics on client bytes and that
every client-induced error becomes a RESP error reply.  The code panics on
three cited paths: `recieve_message` panics via `expect` on non-UTF-8
bytes (`[0xFF]`), `parse_simple_string` panics via `expect` on a simple
string missing its CRLF (`+OK`), and `SetCommand::execute` panics via
`unimplemented!` on `SET k v KEEPTTL 5`. -/
theorem c2_client_input_panics :
    messageInputOfRaw [255] = .error "Unable to parse input bytestream to str utf8" ∧
    decode [43, 79, 75] = .error (.panicked "Simple string must end on a CRLF") ∧
    setExecute [] 0 [.bulkString "k", .bulkString "v", .bulkString "KEEPTTL", .bulkString "5"]
      = .error "not implemented: Needs impl" :=
  ⟨rfl, rfl, rfl⟩

/-- C3: the spec claims `KEYS foo*` after `SET foo 1`, `SET foobar 2`,
`SET baz 3` replies with exactly `foo` and `foobar`.  The parser does
strip the trailing `*`, but `KeysCommand::execute` never reads the parsed
pattern: it replies with every key of the store, so the reply also
contains `baz`. -/
theorem c3_keys_ignores_pattern :
    keysParse [Resp.bulkString "foo*"] = .ok ⟨"foo"⟩ ∧
    keysExecute ⟨"foo"⟩ scenarioEStore
      = .ok (.array [.bulkString "foo", .bulkString "foobar", .bulkString "baz"]) :=
  ⟨rfl, rfl⟩

/-- C4: the spec claims the encoder emits `:n CRLF` for `Integer(n)`.  The
`Integer` arm of `RedisType::serilize` (parser/parse.rs) writes the tag
byte `+` (43) instead of `:` (58): serialising `Integer("5")` yields
`+5 CRLF`, not `:5 CRLF`.  (The other encoder,
`RedisMessageType::encode`, does emit `:`.) -/
theorem c4_integer_serilize_uses_plus_tag :
    serilize (RedisType.integer [53]) = [43, 53, 13, 10] ∧
    serilize (RedisType.integer [53]) ≠ 58 :: ([53] ++ [13, 10]) ∧
    encode (RedisMessageType.integer 5) = [58, 53, 13, 10] :=
  ⟨rfl, by decide, rfl⟩

/-- C5 counterexample: the claim says a gated SET leaves the data store
exactly as it was.  With an expired entry for `k` (deadline 0, now 1),
`SET k w XX` returns the XX gate error but the initial
`get_db().get(&key)` has lazily removed the expired entry: the store after
the command is empty, not `c5Db`. -/
theorem c5_xx_expired_store_mutated :
    setExecute c5Db 1 [.bulkString "k", .bulkString "w", .bulkString "XX"]
      = .ok (xxGateMsg "k", []) ∧ ([] : Store) ≠ c5Db :=
  ⟨rfl, by decide⟩

/-- C5 amended: a SET gated off by NX (live entry exists) or XX (no live
entry) returns a RESP error and writes nothing; the store is exactly the
store left by the gate's initial read — unchanged, except that an expired
entry for the key itself is lazily removed by that read, and every other
key is untouched. -/
theorem c5_nx_xx_gate_frame (db : Store) (now : Nat) (k v : String) :
    (∀ u, storeGetRaw db k = some u → u.isExpired now = false →
      setExecute db now [.bulkString k, .bulkString v, .bulkString "NX"]
        = .ok (nxGateMsg k, db)) ∧
    (storeGetRaw db k = none →
      setExecute db now [.bulkString k, .bulkString v, .bulkString "XX"]
        = .ok (xxGateMsg k, db)) ∧
    (∀ u, storeGetRaw db k = some u → u.isExpired now = true →
      setExecute db now [.bulkString k, .bulkString v, .bulkString "XX"]
        = .ok (xxGateMsg k, storeErase db k) ∧
      ∀ k2, k2 ≠ k → storeGetRaw (storeErase db k) k2 = storeGetRaw db k2) := by
  have hpaNX : parseArguments [Resp.bulkString k, Resp.bulkString v, Resp.bulkString "NX"] now
      = .ok [.nx] := rfl
  have hpaXX : parseArguments [Resp.bulkString k, Resp.bulkString v, Resp.bulkString "XX"] now
      = .ok [.xx] := rfl
  refine ⟨?_, ?_, ?_⟩
  · intro u hu hexp
    simp [setExecute, Resp.asString, dsGet, hu, hexp, hpaNX, expiryOfArguments,
      SetArguments.isExpiryArgument, SetArguments.isSetLogicArgument, List.find?]
  · intro hnone
    simp [setExecute, Resp.asString, dsGet, hnone, hpaXX, expiryOfArguments,
      SetArguments.isExpiryArgument, SetArguments.isSetLogicArgument, List.find?]
  · intro u hu hexp
    refine ⟨?_, fun k2 hk2 => storeGetRaw_erase_ne db k k2 hk2⟩
    simp [setExecute, Resp.asString, dsGet, hu, hexp, hpaXX, expiryOfArguments,
      SetArguments.isExpiryArgument, SetArguments.isSetLogicArgument, List.find?]

/-- C5 witness: the NX branch of the gate theorem applied to a concrete
store with a live entry. -/
theorem c5_nx_xx_gate_frame_witness :
    setExecute [("a", ⟨"a", "x", none⟩)] 0
        [.bulkString "a", .bulkString "y", .bulkString "NX"]
      = .ok (nxGateMsg "a", [("a", ⟨"a", "x", none⟩)]) :=
  (c5_nx_xx_gate_frame [("a", ⟨"a", "x", none⟩)] 0 "a" "y").1 ⟨"a", "x", none⟩ rfl rfl

/-- C6: a `get` that observes an expiry deadline at or before `now`
returns not-found and removes the key, and afterwards — across any
sequence of store operations that never sets `k` again — `get(k)` keeps
returning not-found. -/
theorem c6_expired_get_removes_forever (db : Store) (now : Nat) (k : String)
    (u : DataUnit) (d : Nat)
    (h1 : storeGetRaw db k = some u) (h2 : u.expiry = some d) (h3 : d ≤ now) :
    (dsGet db now k).1 = none ∧
    storeGetRaw (dsGet db now k).2 k = none ∧
    ∀ (ops : List StoreOp) (now2 : Nat), avoidsSet k ops →
      (dsGet (List.foldl applyOp (dsGet db now k).2 ops) now2 k).1 = none := by
  have hexp : u.isExpired now = true := by
    simp [DataUnit.isExpired, h2]
    omega
  have hsnd : (dsGet db now k).2 = storeErase db k := by
    simp [dsGet, h1, hexp]
  have hlook : storeGetRaw (dsGet db now k).2 k = none := by
    rw [hsnd]
    exact storeGetRaw_erase_self db k
  refine ⟨by simp [dsGet, h1, hexp], hlook, ?_⟩
  intro ops now2 hops
  exact dsGet_fst_none _ now2 k (storeGetRaw_foldl_none ops _ k hlook hops)

/-- C6 witness: the theorem applied to a one-entry store whose deadline 0
has passed at instant 1, with an operation list that touches other keys
but never sets `k`. -/
theorem c6_expired_get_removes_forever_witness :
    (dsGet [("k", ⟨"k", "v", some 0⟩)] 1 "k").1 = none ∧
    (dsGet (List.foldl applyOp (dsGet [("k", ⟨"k", "v", some 0⟩)] 1 "k").2
        [.set "other" ⟨"other", "w", none⟩, .get "other" 7]) 9 "k").1 = none := by
  have h := c6_expired_get_removes_forever [("k", ⟨"k", "v", some 0⟩)] 1 "k"
    ⟨"k", "v", some 0⟩ 0 rfl rfl (by decide)
  refine ⟨h.1, h.2.2 [.set "other" ⟨"other", "w", none⟩, .get "other" 7] 9 ?_⟩
  intro v hmem
  simp at hmem

/-- C7 counterexample: the claim says the `11`/`11` length-encoding case
returns an unsupported-encoding error to its caller; the caller-visible
reject of `parse_length_encoding` is the `None` return, but on `[0xC3]`
the code instead hits `unimplemented!` — a panic that never returns. -/
theorem c7_lzf_panic_counterexample :
    parseLengthEncoding [195] = .error "LZF compressed string - not implemented" ∧
    parseLengthEncoding [195] ≠ .ok none := by
  have h195 : parseLengthEncoding [195]
      = .error "LZF compressed string - not implemented" := rfl
  refine ⟨h195, ?_⟩
  rw [h195]
  simp

/-- C7 amended: for every input whose first byte has top two bits 11 and
low two bits 11, `parse_length_encoding` panics via `unimplemented!` with
the LZF message; it neither succeeds nor returns normally to its
caller. -/
theorem c7_lzf_top_bits_panics (buf : List Nat) (b0 : Nat) (rest : List Nat)
    (hbuf : buf = b0 :: rest) (h1 : b0 >>> 6 = 3) (h2 : b0 % 4 = 3) :
    parseLengthEncoding buf = .error "LZF compressed string - not implemented" := by
  subst hbuf
  simp [parseLengthEncoding, h1, h2]

/-- C7 witness: the amended theorem applied to the byte 0xFF followed by
spare bytes. -/
theorem c7_lzf_top_bits_panics_witness :
    parseLengthEncoding [255, 1, 2] = .error "LZF compressed string - not implemented" :=
  c7_lzf_top_bits_panics [255, 1, 2] 255 [1, 2] rfl rfl rfl

/-- C8 counterexample: the claim says every 9-byte input whose first five
bytes differ from `REDIS` is rejected; the lowercase magic `redis0011`
differs from `REDIS` byte-wise yet decodes successfully, because
`Header::decode` uppercases the magic before comparing. -/
theorem c8_lowercase_magic_accepted :
    headerDecode [114, 101, 100, 105, 115, 48, 48, 49, 49]
      = .ok ⟨[114, 101, 100, 105, 115], [48, 48, 49, 49]⟩ ∧
    [114, 101, 100, 105, 115] ≠ redisMagic :=
  ⟨rfl, by decide⟩

/-- C8 amended: header decoding succeeds only on 9-byte inputs whose first
five bytes, uppercased, equal `REDIS` (i.e. equal `REDIS` up to ASCII
case), and then the four version bytes are captured verbatim; every 9-byte
input whose uppercased magic differs from `REDIS` is rejected. -/
theorem c8_header_magic_case_insensitive (s : List Nat) :
    (∀ h, headerDecode s = .ok h →
      s.length = 9 ∧ asciiUpper (s.take 5) = redisMagic ∧
      h.magicString = s.take 5 ∧ h.version = s.drop 5) ∧
    (s.length = 9 → asciiUpper (s.take 5) ≠ redisMagic →
      ∃ e, headerDecode s = .error e) := by
  constructor
  · intro h hok
    unfold headerDecode at hok
    split_ifs at hok with hl hu1 hu2 hm
    obtain rfl := Except.ok.inj hok
    exact ⟨by omega, not_not.mp hm, rfl, rfl⟩
  · intro hlen hmagic
    unfold headerDecode
    split_ifs <;> exact ⟨_, rfl⟩

/-- C8 witness: the rejection branch of the amended theorem applied to
`XEDIS0011`. -/
theorem c8_header_magic_case_insensitive_witness :
    ∃ e, headerDecode [88, 69, 68, 73, 83, 48, 48, 49, 49] = .error e :=
  (c8_header_magic_case_insensitive [88, 69, 68, 73, 83, 48, 48, 49, 49]).2
    (by decide) (by decide)

/-- The C9 failing metadata sub-section: marker 0xFA, key `redis-bits`
(length byte 10), value in the 0xC1 two-byte-integer string encoding
(three bytes total: 0xC1 0x39 0x30, value 12345). -/
def c9Input : List Nat := [250, 10] ++ redisBitsBytes ++ [193, 57, 48]

/-- C9: the spec says the `redis-bits` value is decoded by the uniform
`parse_length_encoding` routine, the sub-section consumes exactly that
encoding, and the decoded value is stored.  The code instead skips a fixed
2 bytes and stores the placeholder `no parse`: on a 0xC1-encoded value
(three bytes, value 12345) the sub-section reports 14 consumed bytes out
of the 15-byte sub-section and stores `no parse`. -/
theorem c9_redis_bits_skips_uniform_decoding :
    metadataSubSectionDecode c9Input = .ok (⟨redisBitsBytes, noParseBytes⟩, 14) ∧
    parseLengthEncoding [193, 57, 48] = .ok (some (12345, 3)) ∧
    c9Input.length = 15 :=
  ⟨rfl, rfl, rfl⟩

/-- C10: `DataStore::set` is a pure upsert: afterwards the key maps to
exactly the new entry, every other key maps to exactly what it mapped to
before, and no present key disappears. -/
theorem c10_set_frame (db : Store) (k : String) (v : DataUnit) :
    storeGetRaw (storeInsert db k v) k = some v ∧
    (∀ k2, k2 ≠ k → storeGetRaw (storeInsert db k v) k2 = storeGetRaw db k2) ∧
    (∀ k2 u, storeGetRaw db k2 = some u →
      (storeGetRaw (storeInsert db k v) k2).isSome = true) := by
  refine ⟨storeGetRaw_insert_self db k v, ?_, ?_⟩
  · intro k2 hk2
    exact storeGetRaw_insert_ne db k k2 v hk2
  · intro k2 u hu
    by_cases hk : k2 = k
    · subst hk
      simp [storeGetRaw_insert_self db k2 v]
    · rw [storeGetRaw_insert_ne db k k2 v hk, hu]
      rfl

/-- C10 witness: the frame part of the upsert theorem applied to a
two-entry store. -/
theorem c10_set_frame_witness :
    storeGetRaw (storeInsert [("b", ⟨"b", "w", none⟩)] "a" ⟨"a", "x", some 3⟩) "b"
      = storeGetRaw [("b", ⟨"b", "w", none⟩)] "b" :=
  (c10_set_frame [("b", ⟨"b", "w", none⟩)] "a" ⟨"a", "x", some 3⟩).2.1 "b" (by decide)

end RedisProof
